import Mathlib

/-
Verification development for the console_messenger chat server.

The per-connection session engine (src/client.rs), the credential gate
(src/auth.rs), the user store (src/users.rs) and the routing helpers
(src/message.rs) are shallowly embedded as pure Lean functions.  Strings
are modelled as `List Char`, byte strings as `List Nat` (each element a
byte value), the registry of connected users as an association list from
nickname to delivery handle, and the two concurrent tasks of a session as
pure per-item step functions (one inbound line for the reader task, one
queued message for the writer task).  A step that would panic in Rust
(an `.expect` failing) is modelled by returning `none`.
-/

namespace ConsoleMessenger

/-! ## Characters and strings -/

/-- Whitespace recognised by `str::trim` on the protocol's inputs
(space, tab, newline, carriage return). -/
def isWs (c : Char) : Bool :=
  c = ' ' || c = '\t' || c = '\n' || c = '\r'

/-- Left trim: drop leading whitespace, as `str::trim_start`. -/
def trimLeft (l : List Char) : List Char :=
  l.dropWhile isWs

/-- Both-ends trim of a line, as Rust `str::trim`. -/
def trimChars (l : List Char) : List Char :=
  ((trimLeft l).reverse.dropWhile isWs).reverse

/-- Lowercasing of one character as Rust `str::to_lowercase` acts on the
ASCII and Cyrillic ranges used by this protocol (Latin A-Z, Cyrillic
А-Я and Ё); all other characters are left unchanged. -/
def rustToLower (c : Char) : Char :=
  if 'A' ≤ c ∧ c ≤ 'Z' then Char.ofNat (c.toNat + 32)
  else if 0x410 ≤ c.toNat ∧ c.toNat ≤ 0x42F then Char.ofNat (c.toNat + 0x20)
  else if c.toNat = 0x401 then Char.ofNat 0x451
  else c

/-- Lowercasing of a whole string (`str::to_lowercase`). -/
def toLowerStr (l : List Char) : List Char :=
  l.map rustToLower

/-- Rust `splitn(2, sep)` viewed as: the part before the first separator
and the remainder after it, or `none` when the separator is absent. -/
def splitFirst (sep : Char) : List Char → Option (List Char × List Char)
  | [] => none
  | c :: cs =>
    if c = sep then some ([], cs)
    else (splitFirst sep cs).map (fun p => (c :: p.1, p.2))

/-- Rust `splitn(3, sep)` as the list of produced parts (one, two or
three parts; the last part keeps any further separators). -/
def splitn3 (sep : Char) (l : List Char) : List (List Char) :=
  match splitFirst sep l with
  | none => [l]
  | some (a, r) =>
    match splitFirst sep r with
    | none => [a, r]
    | some (b, r2) => [a, b, r2]

/-! ## Hex codec (the `hex` crate: lowercase encoding, case-insensitive
decoding, failure on odd length or on a non-hex character) -/

/-- Value of one hex digit, `none` for a non-hex character. -/
def hexVal (c : Char) : Option Nat :=
  if '0' ≤ c ∧ c ≤ '9' then some (c.toNat - 48)
  else if 'a' ≤ c ∧ c ≤ 'f' then some (c.toNat - 87)
  else if 'A' ≤ c ∧ c ≤ 'F' then some (c.toNat - 55)
  else none

/-- Lowercase hex digit for a value below 16, as `hex::encode` emits. -/
def hexDigit (n : Nat) : Char :=
  if n < 10 then Char.ofNat (48 + n) else Char.ofNat (87 + n)

/-- Decoding of a hex string into bytes (`hex::decode`): two characters
per byte; odd length or a bad character yields `none`. -/
def hexDecodeChars : List Char → Option (List Nat)
  | [] => some []
  | [_] => none
  | c1 :: c2 :: rest =>
    match hexVal c1, hexVal c2, hexDecodeChars rest with
    | some hi, some lo, some t => some ((16 * hi + lo) :: t)
    | _, _, _ => none

/-- Encoding of bytes as lowercase hex (`hex::encode`). -/
def hexEncode (bs : List Nat) : List Char :=
  (bs.map (fun b => [hexDigit (b / 16), hexDigit (b % 16)])).flatten

/-! ## Authenticated encryption

Modelled from the spec: the cipher itself is the external `aes_gcm`
crate (AES-256-GCM), which is not part of this repository's sources.
Spec 4.3: "any authenticated-encryption cipher with 256-bit keys and
96-bit nonces (e.g., a standard AEAD construction) satisfies the
contract; the design does not depend on a specific cipher beyond
key/nonce sizes and authentication."  The model below is therefore an
idealized AEAD: a keystream XOR for the body plus an authentication tag
that binds key and nonce, so that decryption succeeds exactly for the
key and nonce the ciphertext was produced with. -/

/-- Abstract byte keystream derived from key and nonce; only its length
and its determinism matter to the contract. -/
def keystream (k v : List Nat) (n : Nat) : List Nat :=
  (List.range n).map (fun i => (k.sum * 131 + v.sum * 257 + i * 17 + 101) % 256)

/-- Modelled from the spec: idealized AEAD encryption with key `k` and
nonce `v`; the body is the plaintext XORed with the keystream and the
trailing tag authenticates key and nonce. -/
def encryptAEAD (k v m : List Nat) : List Nat :=
  (List.zipWith Nat.xor m (keystream k v m.length)) ++ (k ++ v)

/-- Modelled from the spec: idealized AEAD decryption; it checks the
authentication tag against the supplied key and nonce and, only on
success, removes the keystream from the body. -/
def decryptAEAD (k v c : List Nat) : Option (List Nat) :=
  let tagLen := k.length + v.length
  if tagLen ≤ c.length ∧ c.drop (c.length - tagLen) = k ++ v then
    let body := c.take (c.length - tagLen)
    some (List.zipWith Nat.xor body (keystream k v body.length))
  else none

/-! ### Round-trip lemmas for the AEAD model -/

lemma length_keystream (k v : List Nat) (n : Nat) : (keystream k v n).length = n := by
  simp [keystream]

lemma zipWith_xor_cancel :
    ∀ (m s : List Nat), m.length ≤ s.length →
      List.zipWith Nat.xor (List.zipWith Nat.xor m s) s = m := by
  intro m
  induction m with
  | nil => intro s _; simp
  | cons a m ih =>
    intro s hs
    cases s with
    | nil => simp at hs
    | cons b s =>
      simp only [List.zipWith_cons_cons, List.cons.injEq]
      refine ⟨Nat.xor_cancel_right b a, ih s ?_⟩
      simpa using hs

lemma take_append_self {α : Type} (a b : List α) : (a ++ b).take a.length = a := by
  induction a with
  | nil => simp
  | cons x xs ih => simp [ih]

lemma drop_append_self {α : Type} (a b : List α) : (a ++ b).drop a.length = b := by
  induction a with
  | nil => simp
  | cons x xs ih => simp [ih]

lemma take_append_of_length {α : Type} {a : List α} (b : List α) {n : Nat}
    (h : a.length = n) : (a ++ b).take n = a := by
  subst h; exact take_append_self a b

lemma drop_append_of_length {α : Type} {a : List α} (b : List α) {n : Nat}
    (h : a.length = n) : (a ++ b).drop n = b := by
  subst h; exact drop_append_self a b

lemma length_encryptAEAD (k v m : List Nat) :
    (encryptAEAD k v m).length = m.length + (k.length + v.length) := by
  simp [encryptAEAD, length_keystream]

/-- C2: encrypting a plaintext with a 32-byte key `k` and a 12-byte nonce
`v` and decrypting with the same `k` and `v` returns exactly the
plaintext, and decrypting the same ciphertext with any 32-byte key `k'`
different from `k` fails authentication and returns no plaintext. -/
theorem c2_aead_round_trip (m k v k' : List Nat)
    (hk : k.length = 32) (hv : v.length = 12) (hk' : k'.length = 32)
    (hne : k' ≠ k) :
    decryptAEAD k v (encryptAEAD k v m) = some m ∧
    decryptAEAD k' v (encryptAEAD k v m) = none := by
  have hbody : (List.zipWith Nat.xor m (keystream k v m.length)).length = m.length := by
    simp [length_keystream]
  have hlen : (encryptAEAD k v m).length = m.length + (k.length + v.length) :=
    length_encryptAEAD k v m
  have hsub : (encryptAEAD k v m).length - (k.length + v.length) = m.length := by
    rw [hlen]; omega
  have hdropKV : (encryptAEAD k v m).drop m.length = k ++ v := by
    rw [encryptAEAD]; exact drop_append_of_length _ hbody
  have htakeBody : (encryptAEAD k v m).take m.length
      = List.zipWith Nat.xor m (keystream k v m.length) := by
    rw [encryptAEAD]; exact take_append_of_length _ hbody
  constructor
  · unfold decryptAEAD
    have hcond : k.length + v.length ≤ (encryptAEAD k v m).length ∧
        (encryptAEAD k v m).drop ((encryptAEAD k v m).length - (k.length + v.length)) = k ++ v := by
      refine ⟨by rw [hlen]; omega, ?_⟩
      rw [hsub]; exact hdropKV
    rw [if_pos hcond]
    simp only [hsub, htakeBody, hbody]
    rw [zipWith_xor_cancel m _ (by rw [length_keystream])]
  · unfold decryptAEAD
    have hlen' : k'.length + v.length = k.length + v.length := by rw [hk, hk']
    rw [if_neg]
    intro hcond
    have hdrop := hcond.2
    rw [hlen', hsub, hdropKV] at hdrop
    have hkv : k = k' := List.append_cancel_right hdrop
    exact hne hkv.symm

/-- Witness for C2 at a concrete key, nonce, plaintext and wrong key. -/
theorem c2_aead_round_trip_witness :
    decryptAEAD (List.replicate 32 0) (List.replicate 12 0)
        (encryptAEAD (List.replicate 32 0) (List.replicate 12 0) [104, 105]) = some [104, 105] ∧
    decryptAEAD (List.replicate 32 1) (List.replicate 12 0)
        (encryptAEAD (List.replicate 32 0) (List.replicate 12 0) [104, 105]) = none :=
  c2_aead_round_trip [104, 105] (List.replicate 32 0) (List.replicate 12 0)
    (List.replicate 32 1) (by decide) (by decide) (by decide) (by decide)

/-! ## Session state machine (src/client.rs, `ClientState`) -/

/-- Per-connection session state, mirroring `enum ClientState` of
src/client.rs. -/
inductive ClientState where
  | PublicChat
  | WaitingForPrivateChatResponse (target_nick : List Char) (sent_key : List Nat)
  | HasPendingPrivateChatRequest (from_nick : List Char) (shared_key : List Nat)
  | InPrivateChat (with_nick : List Char) (shared_key : List Nat)
deriving DecidableEq, Repr

/-! ## Session registry (the `connected_users` map and src/message.rs) -/

/-- Outbound delivery handle of one session: an identifier plus whether
the receiving writer task still consumes the channel (a closed channel
makes `tx.send` fail). -/
structure Handle where
  hid : Nat
  isOpen : Bool
deriving DecidableEq, Repr, Inhabited

/-- The shared `connected_users` map, nickname to delivery handle. -/
abbrev Registry := List (List Char × Handle)

/-- Lookup in an association list by key (`HashMap::get`). -/
def lookupKey {α : Type} (l : List (List Char × α)) (key : List Char) : Option α :=
  match l with
  | [] => none
  | (k, v) :: t => if k = key then some v else lookupKey t key

/-- Insert-or-replace in an association list (`HashMap::insert`). -/
def insertKey {α : Type} (l : List (List Char × α)) (key : List Char) (v : α) :
    List (List Char × α) :=
  match l with
  | [] => [(key, v)]
  | (k, w) :: t => if k = key then (key, v) :: t else (k, w) :: insertKey t key v

/-- Duplicate-nickname gate of `handle_client` (src/client.rs lines
43-52 and 69-73): the nickname is looked up in `connected_users`; if
present the connection is rejected (`none`, the client is disconnected
and nothing is inserted), otherwise the fresh delivery handle is
inserted. -/
def registerNick (reg : Registry) (nick : List Char) (h : Handle) : Option Registry :=
  if (lookupKey reg nick).isSome then none else some ((nick, h) :: reg)

/-- Success of `send_to_user` (src/message.rs): the recipient must be in
the map and its channel must still be open; a closed channel is reported
as the same failure as an absent user. -/
def sendOk (reg : Registry) (target : List Char) : Bool :=
  match lookupKey reg target with
  | some h => h.isOpen
  | none => false

/-- One attempted delivery: recipient, payload, and whether the enqueue
succeeded. -/
structure Send where
  target : List Char
  payload : List Char
  delivered : Bool
deriving DecidableEq, Repr

/-- The delivery attempt `send_to_user` makes for a target. -/
def mkSend (reg : Registry) (target msg : List Char) : Send :=
  ⟨target, msg, sendOk reg target⟩

/-- Attempts made by `broadcast_message` with `is_system_message =
false`: one enqueue per registered user other than the sender, with the
public-chat formatting of src/message.rs. -/
def broadcastSends (reg : Registry) (sender msg : List Char) : List Send :=
  (reg.filter (fun pr => pr.1 ≠ sender)).map
    (fun pr => ⟨pr.1, "Всем ".data ++ sender ++ ": ".data ++ msg ++ "\n".data, pr.2.isOpen⟩)

lemma lookupKey_nil {α : Type} (key : List Char) :
    lookupKey ([] : List (List Char × α)) key = none := rfl

lemma lookupKey_cons {α : Type} (k : List Char) (v : α) (t : List (List Char × α))
    (key : List Char) :
    lookupKey ((k, v) :: t) key = if k = key then some v else lookupKey t key := rfl

lemma lookupKey_eq_none_iff (l : Registry) (key : List Char) :
    lookupKey l key = none ↔ ∀ p ∈ l, p.1 ≠ key := by
  induction l with
  | nil => simp [lookupKey_nil]
  | cons hd t ih =>
    obtain ⟨k, v⟩ := hd
    by_cases h : k = key
    · subst h
      simp [lookupKey_cons]
    · simp [lookupKey_cons, h, ih]

/-- Keys of the registry are pairwise distinct: at most one live session
per nickname. -/
def keysNodup (reg : Registry) : Prop :=
  (reg.map Prod.fst).Nodup

instance (reg : Registry) : Decidable (keysNodup reg) := by
  unfold keysNodup; infer_instance

/-- C1: a second connection completing authentication with a nickname
that is already live is rejected without inserting anything, and when the
nickname is free the insertion keeps the registry's keys unique, binds
the nickname to the new handle and leaves every other entry unchanged. -/
theorem c1_register_unique (reg : Registry) (n : List Char) (h : Handle) :
    ((lookupKey reg n).isSome → registerNick reg n h = none) ∧
    (keysNodup reg → ∀ reg', registerNick reg n h = some reg' →
      keysNodup reg' ∧ lookupKey reg' n = some h ∧
      ∀ m, m ≠ n → lookupKey reg' m = lookupKey reg m) := by
  constructor
  · intro hs
    simp [registerNick, hs]
  · intro hnd reg' hreg
    unfold registerNick at hreg
    by_cases habs : (lookupKey reg n).isSome
    · simp [habs] at hreg
    · have hnone : lookupKey reg n = none := Option.not_isSome_iff_eq_none.mp habs
      simp only [hnone, Option.isSome_none, Bool.false_eq_true, if_false,
        Option.some.injEq] at hreg
      subst hreg
      refine ⟨?_, ?_, ?_⟩
      · unfold keysNodup
        simp only [List.map_cons, List.nodup_cons]
        refine ⟨?_, hnd⟩
        intro hmem
        rcases List.mem_map.mp hmem with ⟨p, hp, hfst⟩
        exact ((lookupKey_eq_none_iff reg n).mp hnone p hp) hfst
      · simp [lookupKey_cons]
      · intro m hm
        rw [lookupKey_cons, if_neg (fun hh => hm hh.symm)]

/-- Witness for C1 at a concrete registry, nickname and handle. -/
theorem c1_register_unique_witness :
    registerNick [("alice".data, ⟨0, true⟩)] "alice".data ⟨1, true⟩ = none ∧
    registerNick [("alice".data, ⟨0, true⟩)] "bob".data ⟨1, true⟩ =
      some [("bob".data, ⟨1, true⟩), ("alice".data, ⟨0, true⟩)] ∧
    keysNodup [("bob".data, ⟨1, true⟩), ("alice".data, ⟨0, true⟩)] := by
  refine ⟨(c1_register_unique [("alice".data, ⟨0, true⟩)] "alice".data ⟨1, true⟩).1 (by decide),
    by decide, ?_⟩
  exact ((c1_register_unique [("alice".data, ⟨0, true⟩)] "bob".data ⟨1, true⟩).2
    (by decide) _ (by decide)).1

/-! ## UTF-8 model

Rust converts between `String` and bytes at the encryption boundary
(`msg_trimmed.as_bytes()`, `String::from_utf8`).  The model below covers
the ASCII fragment exactly (one byte per character); the protocol-level
claims only evaluate it on ASCII plaintexts. -/

/-- Byte encoding of a string, exact on the ASCII fragment. -/
def utf8Encode (cs : List Char) : List Nat :=
  cs.map Char.toNat

/-- Byte decoding with validity check (`String::from_utf8`), exact on
the ASCII fragment: a byte outside ASCII is treated as invalid. -/
def utf8Decode (bs : List Nat) : Option (List Char) :=
  if bs.all (fun b => b < 128) then some (bs.map Char.ofNat) else none

/-! ## Result of one task step -/

/-- Observable outcome of processing one inbound line (reader task) or
one queued message (writer task): the session state afterwards, the
delivery attempts made into other sessions' queues, and the lines
written to the local client. -/
structure StepResult where
  state : ClientState
  sends : List Send
  notices : List (List Char)
deriving DecidableEq, Repr

/-! ## Reader task: notice texts (src/client.rs read_task) -/

/-- Local confirmation after leaving a private chat with the exit token. -/
def exitConfirm : List Char :=
  "Вы вышли из личного чата. Возвращение в общий чат.\n".data

/-- The static /help reply. -/
def helpText : List Char :=
  ("Доступные команды:\n\t/help - Показать это сообщение\n\t/list - Показать список подключённых пользователей\n\t/pm <ник> - Предложить личный чат пользователю <ник>\n\t/accept - Принять запрос на личный чат\n\t/reject - Отклонить запрос на личный чат\n\t\x27выход\x27 - (в приватном чате) Выйти из приватного чата\n\tлюбое_сообщение - Отправить сообщение всем в публичный чат\n").data

/-- Reply to /list depending on who else is online. -/
def listReply (others : List (List Char)) : List Char :=
  if others.isEmpty then "Пока никто больше не подключён.\n".data
  else "Сейчас в сети: ".data ++ (List.intercalate ", ".data others) ++ "\n".data

/-- Notice for /pm without a target. -/
def pmNoTarget : List Char :=
  "Укажите ник пользователя для личного чата: /pm <ник>\n".data

/-- Notice for /pm aimed at oneself. -/
def pmSelfNotice : List Char :=
  "Вы не можете начать личный чат с самим собой.\n".data

/-- Notice after a private-chat request was delivered. -/
def pmSent (target : List Char) : List Char :=
  "Запрос на личный чат отправлен пользователю \x27".data ++ target ++
    "\x27. Ожидание ответа...\n".data

/-- Notice after a private-chat request could not be delivered. -/
def pmNotFound (target : List Char) : List Char :=
  "Пользователь \x27".data ++ target ++ "\x27 не найден или не в сети.\n".data

/-- Notice for /pm issued outside PublicChat. -/
def pmWrongState : List Char :=
  "Вы не можете начать новый личный чат, находясь не в общем чате.\n".data

/-- Notice after /accept succeeded. -/
def acceptOkNotice (partner : List Char) : List Char :=
  "Вы начали личный чат с \x27".data ++ partner ++
    "\x27. Напишите \x27выход\x27 для возврата в общий чат.\n".data

/-- Notice after /accept could not notify the partner. -/
def acceptFailNotice (partner : List Char) : List Char :=
  "Не удалось уведомить \x27".data ++ partner ++
    "\x27, возможно, он отключился. Вы возвращены в общий чат.\n".data

/-- Notice for /accept without a pending request. -/
def noAcceptReq : List Char :=
  "Нет активных запросов на личный чат для принятия.\n".data

/-- Notice after /reject delivered the rejection. -/
def rejectOkNotice (partner : List Char) : List Char :=
  "Вы отклонили запрос на личный чат от \x27".data ++ partner ++ "\x27.\n".data

/-- Notice after /reject could not notify the partner. -/
def rejectFailNotice (partner : List Char) : List Char :=
  "Не удалось уведомить \x27".data ++ partner ++
    "\x27 об отклонении, возможно, он отключился.\n".data

/-- Notice for /reject without a pending request. -/
def noRejectReq : List Char :=
  "Нет активных запросов на личный чат для отклонения.\n".data

/-- Notice for an unknown slash command. -/
def unknownCmdNotice (command : List Char) : List Char :=
  "Неизвестная команда: \x27".data ++ command ++ "\x27. Введите /help.\n".data

/-- Notice when an encrypted private message could not be delivered. -/
def privSendFail (partner : List Char) : List Char :=
  "Не удалось отправить сообщение \x27".data ++ partner ++
    "\x27. Возможно, пользователь отключился. Вы возвращены в общий чат.\n".data

/-- Notice for a legacy direct message aimed at oneself. -/
def dmSelfNotice : List Char :=
  "Вы не можете отправить ЛС самому себе.\n".data

/-- Payload of a legacy direct message (terminal colouring of the word
to the left is elided; it does not affect any routing decision). -/
def dmFormat (sender content : List Char) : List Char :=
  "Вам ".data ++ sender ++ ": ".data ++ content ++ "\n".data

/-- Notice when a legacy direct message target is unreachable. -/
def dmNotFound (recipient : List Char) : List Char :=
  "Ошибка: Пользователь \x27".data ++ recipient ++ "\x27 не найден или не в сети.\n".data

/-- Notice for plain input while waiting for a private-chat answer. -/
def waitingNotice (target : List Char) : List Char :=
  "Вы ожидаете ответа от \x27".data ++ target ++
    "\x27. Чтобы отправить сообщение в общий чат, сначала отмените запрос (пока не реализовано) или дождитесь ответа.\n".data

/-- Notice for plain input while a private-chat request is pending. -/
def pendingNotice (from_nick : List Char) : List Char :=
  "У вас есть запрос на личный чат от \x27".data ++ from_nick ++
    "\x27. Введите /accept или /reject.\n".data

/-- The literal token ending a private chat (checked case-insensitively). -/
def exitToken : List Char := "выход".data

/-! ## Reader task: per-line command interpreter -/

/-- The /pm handler (src/client.rs lines 170-225).  `freshKey` stands
for the 32 random bytes `OsRng` produces at this point.  On an
unreachable target the failure is reported but the state transition to
`WaitingForPrivateChatResponse` is not reverted. -/
def cmdPm (self : List Char) (reg : Registry) (freshKey : List Nat)
    (st : ClientState) (args : List Char) : StepResult :=
  if args = [] then ⟨st, [], [pmNoTarget]⟩
  else if args = self then ⟨st, [], [pmSelfNotice]⟩
  else
    match st with
    | ClientState.PublicChat =>
      let s := mkSend reg args
        ("SYSTEM:PRIVATE_CHAT_REQUEST:".data ++ self ++ ":".data ++ hexEncode freshKey)
      ⟨ClientState.WaitingForPrivateChatResponse args freshKey, [s],
        [if s.delivered then pmSent args else pmNotFound args]⟩
    | _ => ⟨st, [], [pmWrongState]⟩

/-- The /accept handler (src/client.rs lines 226-259): transition to
`InPrivateChat`, notify the partner, and revert to `PublicChat` when the
notification cannot be delivered. -/
def cmdAccept (self : List Char) (reg : Registry) (st : ClientState) : StepResult :=
  match st with
  | ClientState.HasPendingPrivateChatRequest from_nick shared_key =>
    let s := mkSend reg from_nick ("SYSTEM:PRIVATE_CHAT_ACCEPTED:".data ++ self)
    if s.delivered then
      ⟨ClientState.InPrivateChat from_nick shared_key, [s], [acceptOkNotice from_nick]⟩
    else
      ⟨ClientState.PublicChat, [s], [acceptFailNotice from_nick]⟩
  | _ => ⟨st, [], [noAcceptReq]⟩

/-- The /reject handler (src/client.rs lines 260-289): transition to
`PublicChat` and best-effort notify the partner. -/
def cmdReject (self : List Char) (reg : Registry) (st : ClientState) : StepResult :=
  match st with
  | ClientState.HasPendingPrivateChatRequest from_nick _ =>
    let s := mkSend reg from_nick ("SYSTEM:PRIVATE_CHAT_REJECTED:".data ++ self)
    if s.delivered then
      ⟨ClientState.PublicChat, [s], [rejectOkNotice from_nick]⟩
    else
      ⟨ClientState.PublicChat, [s], [rejectFailNotice from_nick]⟩
  | _ => ⟨st, [], [noRejectReq]⟩

/-- Slash-command dispatch (src/client.rs lines 129-298): the command is
the text after `/` up to the first space, lowercased; the argument is
the trimmed remainder. -/
def runCommand (self : List Char) (reg : Registry) (freshKey : List Nat)
    (st : ClientState) (rest : List Char) : Option StepResult :=
  let parsed := match splitFirst ' ' rest with
    | none => (rest, ([] : List Char))
    | some p => p
  let command := toLowerStr parsed.1
  let args := trimChars parsed.2
  if command = "help".data then some ⟨st, [], [helpText]⟩
  else if command = "list".data then
    some ⟨st, [], [listReply ((reg.map Prod.fst).filter (fun n => n ≠ self))]⟩
  else if command = "pm".data then some (cmdPm self reg freshKey st args)
  else if command = "accept".data then some (cmdAccept self reg st)
  else if command = "reject".data then some (cmdReject self reg st)
  else some ⟨st, [], [unknownCmdNotice command]⟩

/-- Plain-text routing (src/client.rs lines 299-386), by current state:
encrypt-and-forward in a private chat (the missing 32-byte-key guard of
`Aes256Gcm::new_from_slice(..).expect(..)` is the `none` outcome),
legacy direct message or broadcast in `PublicChat`, and a reminder
notice in the two negotiation states. -/
def plainText (self : List Char) (reg : Registry) (nonce : List Nat)
    (st : ClientState) (t : List Char) : Option StepResult :=
  match st with
  | ClientState.InPrivateChat with_nick shared_key =>
    if shared_key.length = 32 then
      let ct := encryptAEAD shared_key nonce (utf8Encode t)
      let s := mkSend reg with_nick
        ("SYSTEM:ENCRYPTED_PRIVATE_MSG:".data ++ self ++ ":".data ++ hexEncode nonce ++
          ":".data ++ hexEncode ct)
      if s.delivered then some ⟨st, [s], []⟩
      else some ⟨ClientState.PublicChat, [s], [privSendFail with_nick]⟩
    else none
  | ClientState.PublicChat =>
    match splitFirst ':' t with
    | some (pre, post) =>
      let recipient := trimChars pre
      let content := trimChars post
      if recipient = self then some ⟨st, [], [dmSelfNotice]⟩
      else
        let s := mkSend reg recipient (dmFormat self content)
        if s.delivered then some ⟨st, [s], []⟩
        else some ⟨st, [s], [dmNotFound recipient]⟩
    | none => some ⟨st, broadcastSends reg self t, []⟩
  | ClientState.WaitingForPrivateChatResponse target_nick _ =>
    some ⟨st, [], [waitingNotice target_nick]⟩
  | ClientState.HasPendingPrivateChatRequest from_nick _ =>
    some ⟨st, [], [pendingNotice from_nick]⟩

/-- Everything after the exit-token check: a line starting with `/` is a
command, anything else is plain text (src/client.rs lines 129 and 299). -/
def commandOrText (self : List Char) (reg : Registry) (freshKey nonce : List Nat)
    (st : ClientState) (t : List Char) : Option StepResult :=
  if t.head? = some '/' then runCommand self reg freshKey st t.tail
  else plainText self reg nonce st t

/-- Processing of one trimmed, non-empty line (src/client.rs lines
105-386): a line case-insensitively equal to the exit token while in a
private chat ends that chat and is not processed further; everything
else falls through to command or plain-text handling. -/
def processLine (self : List Char) (reg : Registry) (freshKey nonce : List Nat)
    (st : ClientState) (t : List Char) : Option StepResult :=
  if toLowerStr t = exitToken then
    match st with
    | ClientState.InPrivateChat with_nick _ =>
      some ⟨ClientState.PublicChat,
        [mkSend reg with_nick ("SYSTEM:PRIVATE_CHAT_ENDED:".data ++ self)],
        [exitConfirm]⟩
    | _ => commandOrText self reg freshKey nonce st t
  else commandOrText self reg freshKey nonce st t

/-- One iteration of the read task on a raw input line (src/client.rs
lines 102-103 plus the dispatch): the line is trimmed, an empty line is
ignored. -/
def readerLine (self : List Char) (reg : Registry) (freshKey nonce : List Nat)
    (st : ClientState) (line : List Char) : Option StepResult :=
  let t := trimChars line
  if t = [] then some ⟨st, [], []⟩
  else processLine self reg freshKey nonce st t

/-! ## Writer task: notice texts (src/client.rs write_task) -/

/-- Prompt shown when a private-chat request arrives in `PublicChat`. -/
def reqPrompt (sender : List Char) : List Char :=
  "Пользователь \x27".data ++ sender ++
    "\x27 хочет начать с вами личный чат. Введите /accept или /reject.\n".data

/-- Notice for a request whose key field is not valid hex. -/
def reqBadKey : List Char :=
  "Получен некорректный запрос на приватный чат (ошибка ключа).\n".data

/-- Notice for a request with a missing field. -/
def reqMalformed : List Char :=
  "Получен некорректный запрос на приватный чат.\n".data

/-- Info line when the partner accepted our request (colouring elided). -/
def accInfo (orig : List Char) : List Char :=
  "ИНФО: Пользователь \x27".data ++ orig ++
    "\x27 принял ваш запрос на личный чат. Вы теперь в приватном чате.\n".data

/-- Notice for an accept arriving in a non-waiting state. -/
def accUndef (orig : List Char) : List Char :=
  "Пользователь \x27".data ++ orig ++
    "\x27 принял ваш запрос, но вы не находитесь в ожидающем состоянии. Возможно, чат уже начат или отменен.\n".data

/-- Info line when the partner rejected our request. -/
def rejInfo (orig : List Char) : List Char :=
  "ИНФО: Пользователь \x27".data ++ orig ++
    "\x27 отклонил ваш запрос на личный чат. Вы возвращены в общий чат.\n".data

/-- Notice for a reject arriving in a non-waiting state. -/
def rejUndef (orig : List Char) : List Char :=
  "Пользователь \x27".data ++ orig ++
    "\x27 отклонил ваш запрос, но вы не находитесь в ожидающем состоянии. Возможно, чат уже начат или отменен.\n".data

/-- Info line when the partner ended the private chat. -/
def endedInfo (orig : List Char) : List Char :=
  "ИНФО: Пользователь \x27".data ++ orig ++
    "\x27 вышел из личного чата. Вы возвращены в общий чат.\n".data

/-- Info line when the requested partner was busy. -/
def busyInfo (orig : List Char) : List Char :=
  "ИНФО: Пользователь \x27".data ++ orig ++
    "\x27 занят или уже в другом приватном чате. Вы возвращены в общий чат.\n".data

/-- Display line of a decrypted private message. -/
def privMsgDisplay (sender plaintext : List Char) : List Char :=
  "[ЛС от ".data ++ sender ++ "]: ".data ++ plaintext ++ "\n".data

/-- Error notice for a decrypted message that is not valid UTF-8. -/
def utf8Err : List Char :=
  "Получено некорректное UTF-8 сообщение (дешифровка).\n".data

/-- Error notice for an authentication failure on decryption. -/
def authErr : List Char :=
  "Ошибка дешифрования сообщения. Возможно, ключ неверный.\n".data

/-- Error notice for a ciphertext field that is not valid hex. -/
def ctHexErr : List Char :=
  "Получено некорректное зашифрованное сообщение (ошибка hex-декодирования).\n".data

/-- Error notice for a nonce field that is bad hex or not 12 bytes. -/
def nonceHexErr : List Char :=
  "Получено некорректное зашифрованное сообщение (ошибка hex-декодирования nonce или неверная длина).\n".data

/-- Error notice for an encrypted message with a missing field. -/
def encMalformed : List Char :=
  "Получено некорректное зашифрованное сообщение.\n".data

/-- Rejection notice for an encrypted message from a non-partner. -/
def notInChatWith (sender : List Char) : List Char :=
  "Получено зашифрованное сообщение от \x27".data ++ sender ++
    "\x27, но вы не находитесь в приватном чате с ним.\n".data

/-! ## Writer task: control message dispatcher (src/client.rs lines 412-647) -/

/-- The `PRIVATE_CHAT_REQUEST` handler (lines 425-465): a well-formed
request in `PublicChat` stores the pending request (no key-length check
is performed here); in any other state a `PRIVATE_CHAT_BUSY` is sent
back; a missing field or bad hex yields an error notice. -/
def handleRequest (self : List Char) (reg : Registry) (st : ClientState)
    (args : List Char) : StepResult :=
  match splitFirst ':' args with
  | some (sender_nick, key_hex) =>
    match hexDecodeChars key_hex with
    | some shared_key =>
      match st with
      | ClientState.PublicChat =>
        ⟨ClientState.HasPendingPrivateChatRequest sender_nick shared_key, [],
          [reqPrompt sender_nick]⟩
      | _ =>
        ⟨st, [mkSend reg sender_nick ("SYSTEM:PRIVATE_CHAT_BUSY:".data ++ self)], []⟩
    | none => ⟨st, [], [reqBadKey]⟩
  | none => ⟨st, [], [reqMalformed]⟩

/-- The `ENCRYPTED_PRIVATE_MSG` handler (lines 550-628).  The receiver
must be in a private chat with the named sender; then the nonce and
ciphertext are hex-decoded, the cipher is built
(`Aes256Gcm::new_from_slice(..).expect(..)` — `none` models the panic on
a key that is not 32 bytes), the payload is decrypted and UTF-8 decoded. -/
def handleEncrypted (st : ClientState)
    (args : List Char) : Option StepResult :=
  match splitn3 ':' args with
  | [sender_nick, nonce_hex, ciphertext_hex] =>
    match st with
    | ClientState.InPrivateChat with_nick shared_key =>
      if with_nick = sender_nick then
        match hexDecodeChars nonce_hex with
        | some nonce_bytes =>
          if nonce_bytes.length = 12 then
            match hexDecodeChars ciphertext_hex with
            | some ciphertext_bytes =>
              if shared_key.length = 32 then
                match decryptAEAD shared_key nonce_bytes ciphertext_bytes with
                | some plaintext_bytes =>
                  match utf8Decode plaintext_bytes with
                  | some plaintext_msg =>
                    some ⟨st, [], [privMsgDisplay sender_nick plaintext_msg]⟩
                  | none => some ⟨st, [], [utf8Err]⟩
                | none => some ⟨st, [], [authErr]⟩
              else none
            | none => some ⟨st, [], [ctHexErr]⟩
          else some ⟨st, [], [nonceHexErr]⟩
        | none => some ⟨st, [], [nonceHexErr]⟩
      else some ⟨st, [], [notInChatWith sender_nick]⟩
    | _ => some ⟨st, [], [notInChatWith sender_nick]⟩
  | _ => some ⟨st, [], [encMalformed]⟩

/-- One iteration of the write task on a queued message: `SYSTEM:`
messages are dispatched on their command tag, everything else is display
text, suppressed only for a broadcast-formatted line during a private
chat.  `none` models a panic of the task. -/
def writerStep (self : List Char) (reg : Registry) (st : ClientState)
    (msg : List Char) : Option StepResult :=
  if ("SYSTEM:".data).isPrefixOf msg then
    match splitFirst ':' msg with
    | none => some ⟨st, [], []⟩
    | some (_, rest) =>
      let parsed := match splitFirst ':' rest with
        | none => (rest, ([] : List Char))
        | some p => p
      let command := parsed.1
      let args := parsed.2
      if command = "PRIVATE_CHAT_REQUEST".data then
        some (handleRequest self reg st args)
      else if command = "PRIVATE_CHAT_ACCEPTED".data then
        match st with
        | ClientState.WaitingForPrivateChatResponse target_nick sent_key =>
          if target_nick = args then
            some ⟨ClientState.InPrivateChat args sent_key, [], [accInfo args]⟩
          else some ⟨st, [], [accUndef args]⟩
        | _ => some ⟨st, [], [accUndef args]⟩
      else if command = "PRIVATE_CHAT_REJECTED".data then
        match st with
        | ClientState.WaitingForPrivateChatResponse target_nick _ =>
          if target_nick = args then
            some ⟨ClientState.PublicChat, [], [rejInfo args]⟩
          else some ⟨st, [], [rejUndef args]⟩
        | _ => some ⟨st, [], [rejUndef args]⟩
      else if command = "PRIVATE_CHAT_ENDED".data then
        match st with
        | ClientState.InPrivateChat with_nick _ =>
          if with_nick = args then
            some ⟨ClientState.PublicChat, [], [endedInfo args]⟩
          else some ⟨st, [], []⟩
        | _ => some ⟨st, [], []⟩
      else if command = "PRIVATE_CHAT_BUSY".data then
        match st with
        | ClientState.WaitingForPrivateChatResponse target_nick _ =>
          if target_nick = args then
            some ⟨ClientState.PublicChat, [], [busyInfo args]⟩
          else some ⟨st, [], []⟩
        | _ => some ⟨st, [], []⟩
      else if command = "ENCRYPTED_PRIVATE_MSG".data then
        handleEncrypted st args
      else some ⟨st, [], []⟩
  else
    let shouldDisplay := match st with
      | ClientState.InPrivateChat _ _ => !(("Всем ".data).isPrefixOf msg)
      | _ => true
    some ⟨st, [], if shouldDisplay then [msg] else []⟩

/-! ## Persisted user store (src/users.rs, `load_users`) -/

/-- Warning logged for a malformed, non-empty line of users.txt. -/
def userLineWarning (line : List Char) : List Char :=
  "Неверный формат строки в users.txt: ".data ++ line

/-- Processing of one line of the persisted store (src/users.rs lines
23-30): the trimmed line is split at the first `:`; two parts mean an
insertion, otherwise a non-empty line is skipped with a warning and an
empty line is skipped silently.  The result is the updated map and the
warnings produced. -/
def processUserLine (users : List (List Char × List Char)) (line : List Char) :
    (List (List Char × List Char)) × List (List Char) :=
  match splitFirst ':' (trimChars line) with
  | some (k, v) => (insertKey users k v, [])
  | none =>
    if trimChars line = [] then (users, [])
    else (users, [userLineWarning line])

/-- Loading of the whole persisted store: every line is processed in
order; no line ever makes loading fail (the function is total). -/
def load_users (lines : List (List Char)) :
    (List (List Char × List Char)) × List (List Char) :=
  lines.foldl
    (fun acc line =>
      let r := processUserLine acc.1 line
      (r.1, acc.2 ++ r.2))
    ([], [])

/-! ## Credential gate (src/auth.rs, `authorize_user`)

The interaction is modelled over the list of lines the client will send
(`inputs`); an exhausted list models EOF, which aborts authentication.
The result is the authenticated nickname together with the updated user
map, or `none` when the connection is closed (three failed attempts or
EOF). -/

/-- The three-attempt login/registration loop of src/auth.rs.  Each
round reads a nickname line and a password line (both trimmed); a known
nickname with the right password authenticates, a known nickname with a
wrong password costs an attempt, and an unknown nickname offers
registration: an affirmative answer registers and authenticates,
anything else costs an attempt. -/
def authorize_user (attempts : Nat) (db : List (List Char × List Char))
    (inputs : List (List Char)) :
    Option ((List Char) × List (List Char × List Char)) :=
  match attempts with
  | 0 => none
  | a + 1 =>
    match inputs with
    | [] => none
    | nickLine :: rest =>
      let nick_input := trimChars nickLine
      match rest with
      | [] => none
      | passLine :: rest2 =>
        let pass_input := trimChars passLine
        match lookupKey db nick_input with
        | some stored_pass =>
          if stored_pass = pass_input then some (nick_input, db)
          else authorize_user a db rest2
        | none =>
          match rest2 with
          | [] => none
          | ansLine :: rest3 =>
            let answer := toLowerStr (trimChars ansLine)
            if answer = "да".data ∨ answer = "yes".data then
              some (nick_input, insertKey db nick_input pass_input)
            else authorize_user a db rest3

/-! ## Helper lemmas about parsing -/

lemma splitFirst_eq_none_of_not_mem {sep : Char} :
    ∀ {l : List Char}, sep ∉ l → splitFirst sep l = none := by
  intro l
  induction l with
  | nil => intro _; rfl
  | cons c cs ih =>
    intro h
    have hc : ¬(c = sep) := fun he => h (he ▸ List.mem_cons_self c cs)
    have hcs : sep ∉ cs := fun hm => h (List.mem_cons_of_mem c hm)
    rw [splitFirst, if_neg hc, ih hcs]
    rfl

lemma splitFirst_append_sep {sep : Char} :
    ∀ {a : List Char} (b : List Char), sep ∉ a →
      splitFirst sep (a ++ sep :: b) = some (a, b) := by
  intro a
  induction a with
  | nil =>
    intro b _
    simp [splitFirst]
  | cons c cs ih =>
    intro b h
    have hc : ¬(c = sep) := fun he => h (he ▸ List.mem_cons_self c cs)
    have hcs : sep ∉ cs := fun hm => h (List.mem_cons_of_mem c hm)
    rw [List.cons_append, splitFirst, if_neg hc, ih b hcs]
    rfl

lemma toLower_no_colon {t : List Char} (h : toLowerStr t = exitToken) : ':' ∉ t := by
  intro hmem
  have h2 : rustToLower ':' ∈ toLowerStr t := List.mem_map_of_mem rustToLower hmem
  rw [h] at h2
  have h3 : rustToLower ':' = ':' := by decide
  rw [h3] at h2
  exact absurd h2 (by decide)

lemma trim_ne_nil_of_toLower_exit {line : List Char}
    (h : toLowerStr (trimChars line) = exitToken) : trimChars line ≠ [] := by
  intro h0
  rw [h0] at h
  exact absurd h (by decide)

/-! ## C3: the /accept command -/

/-- C3: /accept succeeds only from `HasPendingPrivateChatRequest`: it
moves the session to `InPrivateChat` with that partner and key and sends
`PRIVATE_CHAT_ACCEPTED:<self>` to the partner; when that delivery fails
the state is reverted to `PublicChat` and the failure reported locally;
from every other state it yields a rejection notice and no state
change. -/
theorem c3_accept_transitions (self : List Char) (reg : Registry)
    (freshKey nonce : List Nat) (st : ClientState) :
    (∀ from_nick shared_key,
      st = ClientState.HasPendingPrivateChatRequest from_nick shared_key →
      (sendOk reg from_nick = true →
        readerLine self reg freshKey nonce st ("/accept".data) =
          some ⟨ClientState.InPrivateChat from_nick shared_key,
            [⟨from_nick, "SYSTEM:PRIVATE_CHAT_ACCEPTED:".data ++ self, true⟩],
            [acceptOkNotice from_nick]⟩) ∧
      (sendOk reg from_nick = false →
        readerLine self reg freshKey nonce st ("/accept".data) =
          some ⟨ClientState.PublicChat,
            [⟨from_nick, "SYSTEM:PRIVATE_CHAT_ACCEPTED:".data ++ self, false⟩],
            [acceptFailNotice from_nick]⟩)) ∧
    ((∀ f k, st ≠ ClientState.HasPendingPrivateChatRequest f k) →
      readerLine self reg freshKey nonce st ("/accept".data) =
        some ⟨st, [], [noAcceptReq]⟩) := by
  have hred : readerLine self reg freshKey nonce st ("/accept".data)
      = some (cmdAccept self reg st) := rfl
  constructor
  · intro from_nick shared_key hst
    subst hst
    constructor
    · intro hok
      rw [hred]
      simp [cmdAccept, mkSend, hok]
    · intro hfail
      rw [hred]
      simp [cmdAccept, mkSend, hfail]
  · intro hother
    rw [hred]
    cases st with
    | PublicChat => rfl
    | WaitingForPrivateChatResponse t k => rfl
    | HasPendingPrivateChatRequest f k => exact absurd rfl (hother f k)
    | InPrivateChat w k => rfl

/-- Witness for C3 at concrete sessions (a reachable and an unreachable
partner, and a state without a pending request). -/
theorem c3_accept_transitions_witness :
    readerLine "bob".data [("alice".data, ⟨0, true⟩)] [] []
        (ClientState.HasPendingPrivateChatRequest "alice".data [1, 2]) ("/accept".data) =
      some ⟨ClientState.InPrivateChat "alice".data [1, 2],
        [⟨"alice".data, "SYSTEM:PRIVATE_CHAT_ACCEPTED:".data ++ "bob".data, true⟩],
        [acceptOkNotice "alice".data]⟩ ∧
    readerLine "bob".data [] [] []
        (ClientState.HasPendingPrivateChatRequest "alice".data [1, 2]) ("/accept".data) =
      some ⟨ClientState.PublicChat,
        [⟨"alice".data, "SYSTEM:PRIVATE_CHAT_ACCEPTED:".data ++ "bob".data, false⟩],
        [acceptFailNotice "alice".data]⟩ ∧
    readerLine "bob".data [] [] [] ClientState.PublicChat ("/accept".data) =
      some ⟨ClientState.PublicChat, [], [noAcceptReq]⟩ := by
  refine ⟨?_, ?_, ?_⟩
  · exact (((c3_accept_transitions "bob".data [("alice".data, ⟨0, true⟩)] [] []
      (ClientState.HasPendingPrivateChatRequest "alice".data [1, 2])).1
      "alice".data [1, 2] rfl).1 (by decide))
  · exact (((c3_accept_transitions "bob".data [] [] []
      (ClientState.HasPendingPrivateChatRequest "alice".data [1, 2])).1
      "alice".data [1, 2] rfl).2 (by decide))
  · exact ((c3_accept_transitions "bob".data [] [] [] ClientState.PublicChat).2
      (fun f k h => ClientState.noConfusion h))

/-! ## C4: /pm to an unreachable target keeps the Waiting state -/

/-- C4: /pm issued from `PublicChat` at a target with no working
delivery handle reports the failure locally but does not revert the
already-applied transition: the session stays in
`WaitingForPrivateChatResponse` with the target and the generated key. -/
theorem c4_pm_unreachable_no_revert (self line target : List Char) (reg : Registry)
    (freshKey nonce : List Nat)
    (hline : trimChars line = "/pm ".data ++ target)
    (htrim : trimChars target = target)
    (hne0 : target ≠ [])
    (hneSelf : target ≠ self)
    (hfail : sendOk reg target = false) :
    readerLine self reg freshKey nonce ClientState.PublicChat line =
      some ⟨ClientState.WaitingForPrivateChatResponse target freshKey,
        [⟨target,
          "SYSTEM:PRIVATE_CHAT_REQUEST:".data ++ self ++ ":".data ++ hexEncode freshKey,
          false⟩],
        [pmNotFound target]⟩ := by
  have hstep : processLine self reg freshKey nonce ClientState.PublicChat
      ("/pm ".data ++ target)
      = some (cmdPm self reg freshKey ClientState.PublicChat (trimChars target)) := rfl
  have hcons : "/pm ".data ++ target = '/' :: ("pm ".data ++ target) := rfl
  simp only [readerLine]
  rw [hline, hcons, if_neg (List.cons_ne_nil _ _), ← hcons, hstep, htrim]
  simp only [cmdPm, if_neg hne0, if_neg hneSelf, mkSend, hfail]
  rfl

/-- Witness for C4 at a concrete offline target. -/
theorem c4_pm_unreachable_no_revert_witness :
    readerLine "carol".data [] (List.replicate 32 7) [] ClientState.PublicChat
        ("/pm dave".data) =
      some ⟨ClientState.WaitingForPrivateChatResponse "dave".data (List.replicate 32 7),
        [⟨"dave".data,
          "SYSTEM:PRIVATE_CHAT_REQUEST:".data ++ "carol".data ++ ":".data ++
            hexEncode (List.replicate 32 7),
          false⟩],
        [pmNotFound "dave".data]⟩ :=
  c4_pm_unreachable_no_revert "carol".data "/pm dave".data "dave".data []
    (List.replicate 32 7) [] (by decide) (by decide) (by decide) (by decide) (by decide)

/-! ## C7: the exit token inside a private chat -/

/-- C7: a line whose trimmed form case-insensitively equals the exit
token, read while in `InPrivateChat`, moves the session to `PublicChat`,
attempts exactly one `PRIVATE_CHAT_ENDED` delivery to the former partner
and emits exactly the local confirmation — the line is not additionally
processed as a command or broadcast. -/
theorem c7_exit_token (self line partner : List Char) (key : List Nat)
    (reg : Registry) (freshKey nonce : List Nat)
    (h1 : toLowerStr (trimChars line) = exitToken) :
    readerLine self reg freshKey nonce (ClientState.InPrivateChat partner key) line =
      some ⟨ClientState.PublicChat,
        [mkSend reg partner ("SYSTEM:PRIVATE_CHAT_ENDED:".data ++ self)],
        [exitConfirm]⟩ := by
  have hne : trimChars line ≠ [] := trim_ne_nil_of_toLower_exit h1
  simp only [readerLine]
  rw [if_neg hne]
  simp only [processLine]
  rw [if_pos h1]

/-- Witness for C7: mixed-case, padded exit token while chatting with a
connected partner. -/
theorem c7_exit_token_witness :
    readerLine "alice".data [("bob".data, ⟨0, true⟩)] [] []
        (ClientState.InPrivateChat "bob".data [9]) ("  ВЫХОД  ".data) =
      some ⟨ClientState.PublicChat,
        [mkSend [("bob".data, ⟨0, true⟩)] "bob".data
          ("SYSTEM:PRIVATE_CHAT_ENDED:".data ++ "alice".data)],
        [exitConfirm]⟩ :=
  c7_exit_token "alice".data "  ВЫХОД  ".data "bob".data [9]
    [("bob".data, ⟨0, true⟩)] [] [] (by decide)

/-! ## C10: the exit token outside a private chat is plain text -/

lemma mem_broadcastSends (reg : Registry) (sender msg : List Char) :
    ∀ pr ∈ reg, pr.1 ≠ sender →
      (⟨pr.1, "Всем ".data ++ sender ++ ": ".data ++ msg ++ "\n".data, pr.2.isOpen⟩ : Send)
        ∈ broadcastSends reg sender msg := by
  intro pr hpr hne
  unfold broadcastSends
  exact List.mem_map_of_mem _ (List.mem_filter.mpr ⟨hpr, by simp [hne]⟩)

/-- C10: a line whose trimmed form case-insensitively equals the exit
token, read in any state other than `InPrivateChat`, falls through to
ordinary command/plain-text processing; in `PublicChat` in particular it
is broadcast to every other online user (one delivery attempt per
registered user other than the sender). -/
theorem c10_exit_plain_text (self line : List Char) (reg : Registry)
    (freshKey nonce : List Nat)
    (h1 : toLowerStr (trimChars line) = exitToken) :
    (∀ st : ClientState, (∀ p k, st ≠ ClientState.InPrivateChat p k) →
      readerLine self reg freshKey nonce st line =
        commandOrText self reg freshKey nonce st (trimChars line)) ∧
    (readerLine self reg freshKey nonce ClientState.PublicChat line =
      some ⟨ClientState.PublicChat, broadcastSends reg self (trimChars line), []⟩) ∧
    (∀ pr ∈ reg, pr.1 ≠ self →
      (⟨pr.1, "Всем ".data ++ self ++ ": ".data ++ trimChars line ++ "\n".data,
        pr.2.isOpen⟩ : Send) ∈ broadcastSends reg self (trimChars line)) := by
  have hne : trimChars line ≠ [] := trim_ne_nil_of_toLower_exit h1
  have hfall : ∀ st : ClientState, (∀ p k, st ≠ ClientState.InPrivateChat p k) →
      readerLine self reg freshKey nonce st line =
        commandOrText self reg freshKey nonce st (trimChars line) := by
    intro st hnip
    simp only [readerLine]
    rw [if_neg hne]
    cases st with
    | PublicChat => simp only [processLine]; rw [ite_self]
    | WaitingForPrivateChatResponse t k => simp only [processLine]; rw [ite_self]
    | HasPendingPrivateChatRequest f k => simp only [processLine]; rw [ite_self]
    | InPrivateChat w k => exact absurd rfl (hnip w k)
  refine ⟨hfall, ?_, mem_broadcastSends reg self (trimChars line)⟩
  rw [hfall ClientState.PublicChat (fun p k h => ClientState.noConfusion h)]
  have hhead : trimChars line ≠ [] → (trimChars line).head? ≠ some '/' := by
    intro _ hh
    cases ht : trimChars line with
    | nil => exact hne ht
    | cons c cs =>
      rw [ht] at hh h1
      have hc : c = '/' := by
        simpa using hh
      rw [toLowerStr, List.map_cons] at h1
      have he : exitToken = 'в' :: "ыход".data := rfl
      rw [he] at h1
      injection h1 with hhd _
      rw [hc] at hhd
      exact absurd hhd (by decide)
  simp only [commandOrText]
  rw [if_neg (hhead hne)]
  have hnc : ':' ∉ trimChars line := toLower_no_colon h1
  simp only [plainText]
  rw [splitFirst_eq_none_of_not_mem hnc]

/-- Witness for C10: the literal exit token broadcast from PublicChat. -/
theorem c10_exit_plain_text_witness :
    readerLine "erin".data [("dave".data, ⟨3, true⟩)] [] [] ClientState.PublicChat
        ("выход".data) =
      some ⟨ClientState.PublicChat,
        broadcastSends [("dave".data, ⟨3, true⟩)] "erin".data ("выход".data), []⟩ := by
  have h := (c10_exit_plain_text "erin".data "выход".data [("dave".data, ⟨3, true⟩)]
    [] [] (by decide)).2.1
  simpa using h

/-! ## C5: handling of ENCRYPTED_PRIVATE_MSG -/

lemma splitn3_two_seps {sender nonceHex : List Char} (ctHex : List Char)
    (hs : ':' ∉ sender) (hn : ':' ∉ nonceHex) :
    splitn3 ':' (sender ++ ':' :: (nonceHex ++ ':' :: ctHex)) =
      [sender, nonceHex, ctHex] := by
  simp only [splitn3, splitFirst_append_sep _ hs, splitFirst_append_sep _ hn]

/-- C5 counterexample: the claim requires hex-decoding failure and a
wrong-length nonce to be reported as distinct errors, but a nonce field
of bad hex (`zz`) and a nonce field of valid hex decoding to 1 byte
(`00`) produce the identical notice (`nonceHexErr`, the shared message
of src/client.rs lines 603-609), so the two failure categories are not
reported distinctly. -/
theorem c5_nonce_errors_share_one_notice :
    writerStep "bob".data [] (ClientState.InPrivateChat "alice".data (List.replicate 32 0))
        ("SYSTEM:ENCRYPTED_PRIVATE_MSG:alice:zz:00".data) =
      some ⟨ClientState.InPrivateChat "alice".data (List.replicate 32 0), [],
        [nonceHexErr]⟩ ∧
    writerStep "bob".data [] (ClientState.InPrivateChat "alice".data (List.replicate 32 0))
        ("SYSTEM:ENCRYPTED_PRIVATE_MSG:alice:00:00".data) =
      some ⟨ClientState.InPrivateChat "alice".data (List.replicate 32 0), [],
        [nonceHexErr]⟩ :=
  ⟨by decide, by decide⟩

/-- C5 as amended: an `ENCRYPTED_PRIVATE_MSG` naming sender `s` is
decrypted and displayed only when the session is `InPrivateChat` with
partner `s`; in every other state it is rejected with a notice and
discarded with no state change; every decryption failure yields a
non-fatal error notice and leaves the state unchanged, where bad nonce
hex and a wrong-length nonce share one notice while the ciphertext-hex
and authentication failures each have their own, the three notice texts
being pairwise distinct. -/
theorem c5_encrypted_msg_handling (self sender nonceHex ctHex m : List Char)
    (reg : Registry) (st : ClientState)
    (hm : m = "SYSTEM:ENCRYPTED_PRIVATE_MSG:".data ++ sender ++ ":".data ++
      nonceHex ++ ":".data ++ ctHex)
    (hs : ':' ∉ sender) (hn : ':' ∉ nonceHex) :
    (∀ key nb cb pt, st = ClientState.InPrivateChat sender key →
      key.length = 32 →
      hexDecodeChars nonceHex = some nb → nb.length = 12 →
      hexDecodeChars ctHex = some cb →
      decryptAEAD key nb cb = some pt →
      pt.all (fun b => b < 128) = true →
      writerStep self reg st m =
        some ⟨st, [], [privMsgDisplay sender (pt.map Char.ofNat)]⟩) ∧
    ((∀ key, st ≠ ClientState.InPrivateChat sender key) →
      writerStep self reg st m = some ⟨st, [], [notInChatWith sender]⟩) ∧
    (∀ key, st = ClientState.InPrivateChat sender key →
      (hexDecodeChars nonceHex = none ∨
        ∃ nb, hexDecodeChars nonceHex = some nb ∧ nb.length ≠ 12) →
      writerStep self reg st m = some ⟨st, [], [nonceHexErr]⟩) ∧
    (∀ key nb, st = ClientState.InPrivateChat sender key →
      hexDecodeChars nonceHex = some nb → nb.length = 12 →
      hexDecodeChars ctHex = none →
      writerStep self reg st m = some ⟨st, [], [ctHexErr]⟩) ∧
    (∀ key nb cb, st = ClientState.InPrivateChat sender key →
      key.length = 32 →
      hexDecodeChars nonceHex = some nb → nb.length = 12 →
      hexDecodeChars ctHex = some cb →
      decryptAEAD key nb cb = none →
      writerStep self reg st m = some ⟨st, [], [authErr]⟩) ∧
    (nonceHexErr ≠ ctHexErr ∧ ctHexErr ≠ authErr ∧ nonceHexErr ≠ authErr) := by
  subst hm
  have hargs : sender ++ ":".data ++ nonceHex ++ ":".data ++ ctHex =
      sender ++ ':' :: (nonceHex ++ ':' :: ctHex) := by
    simp
  have hred : writerStep self reg st ("SYSTEM:ENCRYPTED_PRIVATE_MSG:".data ++ sender ++
      ":".data ++ nonceHex ++ ":".data ++ ctHex) =
      handleEncrypted st (sender ++ ":".data ++ nonceHex ++ ":".data ++ ctHex) := rfl
  have hsplit : splitn3 ':' (sender ++ ":".data ++ nonceHex ++ ":".data ++ ctHex) =
      [sender, nonceHex, ctHex] := by
    rw [hargs]; exact splitn3_two_seps ctHex hs hn
  refine ⟨?_, ?_, ?_, ?_, ?_, by decide, by decide, by decide⟩
  · intro key nb cb pt hst h32 hnb h12 hcb hdec hpt
    subst hst
    rw [hred]
    simp only [handleEncrypted, hsplit, eq_self_iff_true, if_true]
    rw [hnb]
    simp only [if_pos h12]
    rw [hcb]
    simp only [if_pos h32]
    rw [hdec]
    simp only [utf8Decode, if_pos hpt]
  · intro hnot
    rw [hred]
    cases st with
    | PublicChat => simp only [handleEncrypted, hsplit]
    | WaitingForPrivateChatResponse t k => simp only [handleEncrypted, hsplit]
    | HasPendingPrivateChatRequest f k => simp only [handleEncrypted, hsplit]
    | InPrivateChat w k =>
      have hw : ¬(w = sender) := fun he => (hnot k) (by rw [he])
      simp only [handleEncrypted, hsplit]
      rw [if_neg hw]
  · intro key hst hbad
    subst hst
    rw [hred]
    simp only [handleEncrypted, hsplit, eq_self_iff_true, if_true]
    rcases hbad with hnone | ⟨nb, hnb, hlen⟩
    · rw [hnone]
    · rw [hnb]
      simp only [if_neg hlen]
  · intro key nb hst hnb h12 hct
    subst hst
    rw [hred]
    simp only [handleEncrypted, hsplit, eq_self_iff_true, if_true]
    rw [hnb]
    simp only [if_pos h12]
    rw [hct]
  · intro key nb cb hst h32 hnb h12 hcb hdec
    subst hst
    rw [hred]
    simp only [handleEncrypted, hsplit, eq_self_iff_true, if_true]
    rw [hnb]
    simp only [if_pos h12]
    rw [hcb]
    simp only [if_pos h32]
    rw [hdec]

/-- Witness for C5: a complete concrete round trip (the sender-side
ciphertext decrypted and displayed) and a concrete rejection outside a
private chat. -/
theorem c5_encrypted_msg_handling_witness :
    writerStep "bob".data [] (ClientState.InPrivateChat "alice".data (List.replicate 32 0))
      ("SYSTEM:ENCRYPTED_PRIVATE_MSG:".data ++ "alice".data ++ ":".data ++
        hexEncode (List.replicate 12 0) ++ ":".data ++
        hexEncode (encryptAEAD (List.replicate 32 0) (List.replicate 12 0) [104, 105])) =
      some ⟨ClientState.InPrivateChat "alice".data (List.replicate 32 0), [],
        [privMsgDisplay "alice".data (([104, 105] : List Nat).map Char.ofNat)]⟩ ∧
    writerStep "bob".data [] ClientState.PublicChat
      ("SYSTEM:ENCRYPTED_PRIVATE_MSG:".data ++ "alice".data ++ ":".data ++
        hexEncode (List.replicate 12 0) ++ ":".data ++
        hexEncode (encryptAEAD (List.replicate 32 0) (List.replicate 12 0) [104, 105])) =
      some ⟨ClientState.PublicChat, [], [notInChatWith "alice".data]⟩ := by
  constructor
  · exact (c5_encrypted_msg_handling "bob".data "alice".data
      (hexEncode (List.replicate 12 0))
      (hexEncode (encryptAEAD (List.replicate 32 0) (List.replicate 12 0) [104, 105]))
      _ [] (ClientState.InPrivateChat "alice".data (List.replicate 32 0))
      rfl (by decide) (by decide)).1
      (List.replicate 32 0) (List.replicate 12 0)
      (encryptAEAD (List.replicate 32 0) (List.replicate 12 0) [104, 105])
      [104, 105] rfl (by decide) (by decide) (by decide) (by decide) (by decide) (by decide)
  · exact (c5_encrypted_msg_handling "bob".data "alice".data
      (hexEncode (List.replicate 12 0))
      (hexEncode (encryptAEAD (List.replicate 32 0) (List.replicate 12 0) [104, 105]))
      _ [] ClientState.PublicChat rfl (by decide) (by decide)).2.1
      (fun key h => ClientState.noConfusion h)

/-! ## C6: a wrong-length key in PRIVATE_CHAT_REQUEST crashes the task -/

/-- C6 (refuting the claim): a `PRIVATE_CHAT_REQUEST` whose hex key
decodes to 2 bytes instead of 32 is accepted without any error notice or
rejection (first conjunct — the writer task stores the bad key), /accept
then moves the session into a private chat keyed with those 2 bytes
(second conjunct), and the next `ENCRYPTED_PRIVATE_MSG` makes the writer
task panic — `Aes256Gcm::new_from_slice(..).expect("Key length is 32
bytes")` — modelled as the `none` outcome (third conjunct).  The
wrong-length key is thus neither logged nor survived. -/
theorem c6_bad_key_length_panics :
    writerStep "bob".data [("mallory".data, ⟨0, true⟩)] ClientState.PublicChat
        ("SYSTEM:PRIVATE_CHAT_REQUEST:mallory:abcd".data) =
      some ⟨ClientState.HasPendingPrivateChatRequest "mallory".data [171, 205], [],
        [reqPrompt "mallory".data]⟩ ∧
    readerLine "bob".data [("mallory".data, ⟨0, true⟩)] [] []
        (ClientState.HasPendingPrivateChatRequest "mallory".data [171, 205])
        ("/accept".data) =
      some ⟨ClientState.InPrivateChat "mallory".data [171, 205],
        [⟨"mallory".data, "SYSTEM:PRIVATE_CHAT_ACCEPTED:bob".data, true⟩],
        [acceptOkNotice "mallory".data]⟩ ∧
    writerStep "bob".data [("mallory".data, ⟨0, true⟩)]
        (ClientState.InPrivateChat "mallory".data [171, 205])
        ("SYSTEM:ENCRYPTED_PRIVATE_MSG:mallory:000000000000000000000000:00".data) =
      none :=
  ⟨by decide, by decide, by decide⟩

/-! ## C8: loading the persisted user store -/

/-- C8 counterexample: the line `a:b:c` contains two `:` (so it is not
"exactly one `:`-separated nickname:password record"), yet loading
inserts it (nickname `a`, password `b:c`) and emits no warning. -/
theorem c8_two_colon_line_inserted :
    (trimChars ("a:b:c".data)).count ':' ≠ 1 ∧
    load_users [("a:b:c".data)] = ([("a".data, "b:c".data)], []) :=
  ⟨by decide, by decide⟩

/-- C8 as amended: a trimmed line with at least one `:` is split at the
first `:` and inserted (even when it has several `:`); a non-empty line
without `:` is skipped with a warning and not inserted; a blank line is
skipped silently; no line ever fails the (total) loading function. -/
theorem c8_load_users_amended (users : List (List Char × List Char))
    (line k v : List Char) :
    (splitFirst ':' (trimChars line) = some (k, v) →
      processUserLine users line = (insertKey users k v, [])) ∧
    (splitFirst ':' (trimChars line) = none → trimChars line ≠ [] →
      processUserLine users line = (users, [userLineWarning line])) ∧
    (trimChars line = [] →
      processUserLine users line = (users, [])) := by
  refine ⟨?_, ?_, ?_⟩
  · intro h
    simp only [processUserLine, h]
  · intro h hne
    simp only [processUserLine, h]
    rw [if_neg hne]
  · intro h
    simp only [processUserLine, h]
    rfl

/-- Witness for the amended C8: one inserted line, one warned line, one
blank line. -/
theorem c8_load_users_amended_witness :
    processUserLine [] ("x:y".data) = ([("x".data, "y".data)], []) ∧
    processUserLine [] ("broken".data) = ([], [userLineWarning ("broken".data)]) ∧
    processUserLine [] ("   ".data) = ([], []) :=
  ⟨(c8_load_users_amended [] ("x:y".data) "x".data "y".data).1 (by decide),
    (c8_load_users_amended [] ("broken".data) [] []).2.1 (by decide) (by decide),
    (c8_load_users_amended [] ("   ".data) [] []).2.2 (by decide)⟩

/-! ## C9: nicknames accepted by the credential gate -/

/-- C9 counterexample: a client that sends an empty nickname line, any
password and an affirmative registration answer is authenticated with
the empty nickname, which is also inserted into the user store. -/
theorem c9_empty_nickname_registered :
    authorize_user 3 [] [[], "pw".data, "да".data] =
      some (([] : List Char), [(([] : List Char), "pw".data)]) := by
  decide

/-- C9 as amended: the authentication/registration flow never checks for
emptiness; what it guarantees is only that the returned nickname is the
trimmed form of one of the lines the client sent (so it may be empty). -/
theorem c9_nickname_is_trimmed_input :
    ∀ (attempts : Nat) (db : List (List Char × List Char))
      (inputs : List (List Char)) (nick : List Char)
      (db' : List (List Char × List Char)),
      authorize_user attempts db inputs = some (nick, db') →
      ∃ l ∈ inputs, nick = trimChars l := by
  intro attempts
  induction attempts with
  | zero =>
    intro db inputs nick db' h
    simp [authorize_user] at h
  | succ a ih =>
    intro db inputs nick db' h
    cases inputs with
    | nil => simp [authorize_user] at h
    | cons nickLine rest =>
      cases rest with
      | nil => simp [authorize_user] at h
      | cons passLine rest2 =>
        cases hl : lookupKey db (trimChars nickLine) with
        | some stored =>
          simp only [authorize_user, hl] at h
          by_cases hp : stored = trimChars passLine
          · rw [if_pos hp] at h
            obtain ⟨h1, _⟩ := Prod.mk.injEq .. ▸ Option.some.inj h
            exact ⟨nickLine, List.mem_cons_self _ _, h1.symm⟩
          · rw [if_neg hp] at h
            obtain ⟨l, hl2, he⟩ := ih db rest2 nick db' h
            exact ⟨l, List.mem_cons_of_mem _ (List.mem_cons_of_mem _ hl2), he⟩
        | none =>
          cases rest2 with
          | nil => simp [authorize_user, hl] at h
          | cons ansLine rest3 =>
            simp only [authorize_user, hl] at h
            by_cases ha : toLowerStr (trimChars ansLine) = ['д', 'а'] ∨
                toLowerStr (trimChars ansLine) = ['y', 'e', 's']
            · rw [if_pos ha] at h
              obtain ⟨h1, _⟩ := Prod.mk.injEq .. ▸ Option.some.inj h
              exact ⟨nickLine, List.mem_cons_self _ _, h1.symm⟩
            · rw [if_neg ha] at h
              obtain ⟨l, hl2, he⟩ := ih db rest3 nick db' h
              exact ⟨l, List.mem_cons_of_mem _ (List.mem_cons_of_mem _
                (List.mem_cons_of_mem _ hl2)), he⟩

/-- Witness for the amended C9 at a concrete successful login. -/
theorem c9_nickname_is_trimmed_input_witness :
    ∃ l ∈ [" bob ".data, "pw".data], "bob".data = trimChars l :=
  c9_nickname_is_trimmed_input 3 [("bob".data, "pw".data)]
    [" bob ".data, "pw".data] "bob".data [("bob".data, "pw".data)] (by decide)

end ConsoleMessenger
